import Mathlib

/-!
Verification development for the PM-2.5 forecasting data-alignment engine
(`Dataset.ipynb` / `Utils.ipynb`).

The code is shallowly embedded: timestamps are minutes since an epoch
(`Int`), numeric data columns are exact rationals (`ℚ`), numpy arrays are
`List`s, and a pandas frame indexed by timestamp with columns
`pm2_5`, `gpsLongitude`, `gpsLatitude` is a `List Row`.  A numpy
`datetime64` slot that can hold `NaT` is an `Option` (all comparisons with
`NaT` are `False` in numpy, which is modelled explicitly at each use).
-/

/-- One row of the primary table: the timestamp index plus the columns
`pm2_5`, `gpsLongitude`, `gpsLatitude`. -/
structure Row where
  ts : Int
  pm : ℚ
  lon : ℚ
  lat : ℚ
deriving DecidableEq, Repr

/-- Element-wise consecutive difference, `np.diff`. -/
def npDiff (l : List Int) : List Int :=
  List.zipWith (fun a b => b - a) l l.tail

/-- Indices of the `true` entries of a boolean vector: `np.nonzero` on a
1-d mask (flattened). -/
def npNonzero : List Bool → List Nat
  | [] => []
  | b :: l =>
      let rest := (npNonzero l).map (· + 1)
      if b then 0 :: rest else rest

/-- Source `comp_snapshot_indices`.  `indices` collects the positions `p`
of the consecutive-difference vector with `diff[p] ≥ snapshot_minutes`;
`np.insert(indices, 0, 0)` and `np.append(indices, len(index))` flatten
the `np.nonzero` tuple and prepend `0` / append the array length, and
`np.column_stack` pairs the two vectors into `(i_start, i_end)` rows. -/
def comp_snapshot_indices (index : List Int) (snapshot_minutes : Int) :
    List (Nat × Nat) :=
  let indices := npNonzero ((npDiff index).map (fun d => decide (snapshot_minutes ≤ d)))
  (0 :: indices).zip (indices ++ [index.length])

/-- Mean of the timestamp slice `timestamps[start:end]` viewed as `i8`;
an empty slice gives `nan`, which `np.fromiter(..., dtype=datetime64)`
turns into `NaT` (`none` here). -/
def sliceMean (timestamps : List Int) (s e : Nat) : Option ℚ :=
  let sl := (timestamps.drop s).take (e - s)
  if sl.length = 0 then none
  else some ((sl.map (fun t => (t : ℚ))).sum / (sl.length : ℚ))

/-- Source `comp_snapshot_timestamps`: the average timestamp of each
snapshot's slice. -/
def comp_snapshot_timestamps (snapshot_indices : List (Nat × Nat))
    (timestamps : List Int) : List (Option ℚ) :=
  snapshot_indices.map (fun p => sliceMean timestamps p.1 p.2)

/-- Grouping key used by `average_duplicates`: the frame's (floored)
timestamp index together with the tuple of the `columns` argument, which
the `Dataset` pipeline fixes to `['gpsLatitude', 'gpsLongitude']`. -/
def keyOf (r : Row) : Int × ℚ × ℚ := (r.ts, r.lat, r.lon)

/-- Lexicographic order on grouping keys: pandas `groupby` emits groups
in the natural sort order of the key `(index, (lat, lon))`. -/
def keyLe (a b : Int × ℚ × ℚ) : Prop :=
  a.1 < b.1 ∨ (a.1 = b.1 ∧ (a.2.1 < b.2.1 ∨ (a.2.1 = b.2.1 ∧ a.2.2 ≤ b.2.2)))

instance : DecidableRel keyLe := fun a b => by
  unfold keyLe; infer_instance

instance : IsTotal (Int × ℚ × ℚ) keyLe where
  total a b := by
    rcases lt_trichotomy a.1 b.1 with h | h | h
    · exact Or.inl (Or.inl h)
    · rcases lt_trichotomy a.2.1 b.2.1 with h2 | h2 | h2
      · exact Or.inl (Or.inr ⟨h, Or.inl h2⟩)
      · rcases le_total a.2.2 b.2.2 with h3 | h3
        · exact Or.inl (Or.inr ⟨h, Or.inr ⟨h2, h3⟩⟩)
        · exact Or.inr (Or.inr ⟨h.symm, Or.inr ⟨h2.symm, h3⟩⟩)
      · exact Or.inr (Or.inr ⟨h.symm, Or.inl h2⟩)
    · exact Or.inr (Or.inl h)

instance : IsTrans (Int × ℚ × ℚ) keyLe where
  trans a b c hab hbc := by
    rcases hab with h1 | ⟨e1, h1⟩
    · rcases hbc with h2 | ⟨e2, _⟩
      · exact Or.inl (h1.trans h2)
      · exact Or.inl (e2 ▸ h1)
    · rcases hbc with h2 | ⟨e2, h2⟩
      · exact Or.inl (e1 ▸ h2)
      · refine Or.inr ⟨e1.trans e2, ?_⟩
        rcases h1 with h1 | ⟨f1, h1⟩
        · rcases h2 with h2 | ⟨f2, _⟩
          · exact Or.inl (h1.trans h2)
          · exact Or.inl (f2 ▸ h1)
        · rcases h2 with h2 | ⟨f2, h2⟩
          · exact Or.inl (f1 ▸ h2)
          · exact Or.inr ⟨f1.trans f2, h1.trans h2⟩

/-- Arithmetic mean, an exact-rational idealization of the float64
`.mean()` aggregation.  The idealization is faithful wherever the data
is exactly representable and the group is a power-of-two size or a
singleton; float64 rounding (for example, the mean of three copies of
`0.1` is `0.10000000000000002`) can perturb the averaged key columns,
which matters for idempotence claims about `average_duplicates` but not
for the integer-exact evaluations used here. -/
def meanQ (l : List ℚ) : ℚ := l.sum / (l.length : ℚ)

/-- The aggregated output row of `groupby(...).mean()` for one key: the
group is every row whose key matches, and each remaining numeric column
(`pm2_5`, `gpsLongitude`, `gpsLatitude`) is averaged. -/
def mkRow (rows : List Row) (k : Int × ℚ × ℚ) : Row :=
  let grp := rows.filter (fun r => decide (keyOf r = k))
  { ts := k.1
    pm := meanQ (grp.map Row.pm)
    lon := meanQ (grp.map Row.lon)
    lat := meanQ (grp.map Row.lat) }

/-- Source `average_duplicates`: group by `(index, (lat, lon))`, average
the numeric columns of each group, and re-index.  The groups come out in
the sorted order of the distinct keys (pandas `groupby` default), one
output row per distinct key.  (The temporary tuple column it adds to its
argument is dropped from the result and never read by the pipeline.) -/
def average_duplicates (rows : List Row) : List Row :=
  (List.insertionSort keyLe (rows.map keyOf).dedup).map (mkRow rows)

/-- Timestamp floored to a multiple of `snapshot_minutes`
(`index.floor(f'{snapshot_minutes}min')`). -/
def floorTs (t m : Int) : Int := m * (Int.fdiv t m)

/-- Source `Dataset.prep_pm_gps`.  It re-indexes the frame by the floored
timestamp in place and then calls `average_duplicates`, but the grouped
frame `average_duplicates` RETURNS IS DISCARDED (the call's result is not
assigned and `groupby(...).mean()` does not mutate `df`), so only the
flooring is visible to the rest of the construction. -/
def prep_pm_gps (pm_gps : List Row) (snapshot_minutes : Int) : List Row :=
  pm_gps.map (fun r => { r with ts := floorTs r.ts snapshot_minutes })

/-- Python `sorted(indices, reverse=True)` followed by `del arr[idx]` for
each index: source `delete_indices` from `utils`. -/
def delete_indices {α : Type _} (l : List α) (indices : List Nat) : List α :=
  (List.insertionSort (fun a b : Nat => b ≤ a) indices).foldl
    (fun acc i => acc.eraseIdx i) l

/-- Source `find_indices_of_unit_batches`: positions of the batches whose
snapshot count is at most one. -/
def find_indices_of_unit_batches (batch_indices : List (List α)) : List Nat :=
  npNonzero (batch_indices.map (fun b => decide (b.length ≤ 1)))

/-- Source `split_by_double_index`: `[arr[start:end] for start, end in index]`. -/
def split_by_double_index (index : List (Nat × Nat)) (arr : List α) : List (List α) :=
  index.map (fun p => (arr.drop p.1).take (p.2 - p.1))

/-- Numpy basic integer indexing on a 1-d `Int` array, used only by
`split_snapshot_indices_to_batches`: a negative index wraps once from
the end.  At that call site the positions are snapshot boundaries, which
are at most `len(timestamps)` minus one, except `prev.end - 1 = -1` for
an empty leading segment, which wraps — so the out-of-bounds branch
(junk value `0`) is unreachable there.  The weather path, where an
out-of-bounds index genuinely arises, goes through the raising
`npFancyIndexInt` instead. -/
def npGetWrapInt (l : List Int) (i : Int) : Int :=
  if i < 0 then l.getD (l.length - (-i).toNat) 0 else l.getD i.toNat 0

/-- Source `split_snapshot_indices_to_batches`: for each adjacent pair of
snapshots, compare `timestamps[next.start] - timestamps[prev.end - 1]`
with the threshold; `np.nonzero(... > threshold)[0]` lists the pair
positions whose gap exceeds it.  (`prev.end - 1` is a Python int, so for
`prev.end = 0` it wraps to the last timestamp, as numpy indexing does.) -/
def split_snapshot_indices_to_batches (timestamps : List Int)
    (snapshot_indices : List (Nat × Nat)) (snapshot_minutes : Int) : List Nat :=
  npNonzero ((snapshot_indices.tail.zip snapshot_indices.dropLast).map
    (fun np => decide (snapshot_minutes <
      npGetWrapInt timestamps (np.1.1 : Int) -
        npGetWrapInt timestamps ((np.2.2 : Int) - 1))))

/-- Numpy `np.split(arr, splits)`: sections `arr[0:s1], arr[s1:s2], ...,
arr[sk:len(arr)]`. -/
def np_split (l : List α) (splits : List Nat) : List (List α) :=
  ((0 :: splits).zip (splits ++ [l.length])).map
    (fun ab => (l.drop ab.1).take (ab.2 - ab.1))

/-- Boolean-mask selection `arr[mask]` on parallel numpy arrays. -/
def maskFilter : List α → List Bool → List α
  | a :: l, b :: m => if b then a :: maskFilter l m else maskFilter l m
  | _, _ => []

/-- Source `find_nearest` (from `utils`), scalar case.
`idx = np.searchsorted(arr, v)` (side `'left'`), then the code returns
`idx - (abs(arr[idx-1] - v) < abs(arr[idx % len(arr)] - v))`: Python's
`arr[idx-1]` wraps to the last element when `idx = 0`, and `idx % len`
wraps the right candidate to `arr[0]` when `idx = len(arr)`. -/
def searchsorted (arr : List ℚ) (v : ℚ) : Nat :=
  match arr with
  | [] => 0
  | x :: xs => if v ≤ x then 0 else searchsorted xs v + 1

def find_nearest (arr : List ℚ) (v : ℚ) : Int :=
  let n := arr.length
  let idx := searchsorted arr v
  let left := arr.getD (if idx = 0 then n - 1 else idx - 1) 0
  let right := arr.getD (idx % n) 0
  (idx : Int) - (if |left - v| < |right - v| then 1 else 0)

/-- Vectorized `find_nearest(arr, vals)` as used by `Dataset.__init__` on
the snapshot representative timestamps.  A `NaT` query sorts after every
real timestamp (`searchsorted` gives `len(arr)`) and every absolute-
difference comparison against it is `False`, so the result is `len(arr)`. -/
def find_nearest_vec (arr : List ℚ) (vals : List (Option ℚ)) : List Int :=
  vals.map (fun v => match v with
    | some q => find_nearest arr q
    | none => (arr.length : Int))

/-- Python / numpy error conditions surfaced by the `Dataset` class. -/
inductive PyErr where
  | indexError
  | valueError
deriving DecidableEq, Repr

instance {ε α : Type _} [DecidableEq ε] [DecidableEq α] :
    DecidableEq (Except ε α) := fun a b =>
  match a, b with
  | .ok x, .ok y =>
      if h : x = y then .isTrue (by rw [h])
      else .isFalse (fun hc => h (Except.ok.inj hc))
  | .error e, .error f =>
      if h : e = f then .isTrue (by rw [h])
      else .isFalse (fun hc => h (Except.error.inj hc))
  | .ok _, .error _ => .isFalse (fun hc => Except.noConfusion hc)
  | .error _, .ok _ => .isFalse (fun hc => Except.noConfusion hc)

/-- Python list indexing `l[i]` with an `int` key: a negative index is
offset by the length once; anything still out of `[0, len)` raises
`IndexError`. -/
def pyListGet (l : List α) (i : Int) : Except PyErr α :=
  let j := if i < 0 then i + l.length else i
  if h : 0 ≤ j ∧ j.toNat < l.length then .ok (l.get ⟨j.toNat, h.2⟩)
  else .error .indexError

/-- Numpy single-integer indexing into an array of rows: same wrap-once
and `IndexError` semantics as Python list indexing. -/
def npGetE (l : List α) (i : Int) : Except PyErr α := pyListGet l i

/-- Numpy integer-array (fancy) indexing `arr[idx]` on a 1-d array: each
index wraps once if negative and an index out of `[0, len)` raises
`IndexError`. -/
def npFancyIndexInt (l : List Int) (idx : List Int) : Except PyErr (List Int) :=
  idx.mapM (fun i => pyListGet l i)

/-- Source `Dataset.weather_available_mask`:
`np.abs(weather_index_values[weather_idx] - timestamps) <=
np.timedelta64(minutes_to_weather, 'm')`.  Numpy evaluates the fancy
indexing `weather_index_values[weather_idx]` first — an out-of-range
index raises `IndexError` before any comparison happens.  Only then is
the elementwise comparison taken; when `minutes_to_weather` is `None`
the right-hand side is `NaT` and the comparison is elementwise `False`,
and a `NaT` snapshot timestamp likewise compares `False`. -/
def weather_available_mask (weather_index_values : List Int)
    (weather_idx : List Int) (timestamps : List (Option ℚ))
    (minutes_to_weather : Option Int) : Except PyErr (List Bool) := do
  let sel ← npFancyIndexInt weather_index_values weather_idx
  pure ((sel.zip timestamps).map (fun st =>
    match minutes_to_weather with
    | none => false
    | some tol =>
        match st.2 with
        | none => false
        | some tq => decide (|(st.1 : ℚ) - tq| ≤ (tol : ℚ))))

/-- The four parallel index structures while/after they are split into
batches (`Dataset.split_to_batches` / `remove_unit_batches` operate on
exactly these attributes). -/
structure SplitState where
  pm_gps_idx : List (List (Nat × Nat))
  timestamps : List (List (Option ℚ))
  time_values : Option (List (List (List ℚ)))
  weather_idx : Option (List (List Int))
deriving Repr

/-- Source `Dataset.remove_unit_batches`: the unit-batch positions are
computed from `pm_gps_idx` and deleted from every parallel array that is
present. -/
def remove_unit_batches (s : SplitState) : SplitState :=
  let idx := find_indices_of_unit_batches s.pm_gps_idx
  { pm_gps_idx := delete_indices s.pm_gps_idx idx
    timestamps := delete_indices s.timestamps idx
    time_values := s.time_values.map (fun tv => delete_indices tv idx)
    weather_idx := s.weather_idx.map (fun wi => delete_indices wi idx) }

/-- Source `Dataset.split_to_batches`: compute the batch split positions
from the original (pre-deduplication, floored) index values, `np.split`
every parallel array at those positions, then prune unit batches. -/
def split_to_batches (pm_gps_index_values : List Int) (snapshot_minutes : Int)
    (pm_gps_idx : List (Nat × Nat)) (timestamps : List (Option ℚ))
    (time_values : Option (List (List ℚ))) (weather_idx : Option (List Int)) :
    SplitState :=
  let batch_splits :=
    split_snapshot_indices_to_batches pm_gps_index_values pm_gps_idx snapshot_minutes
  remove_unit_batches
    { pm_gps_idx := np_split pm_gps_idx batch_splits
      timestamps := np_split timestamps batch_splits
      time_values := time_values.map (fun tv => np_split tv batch_splits)
      weather_idx := weather_idx.map (fun wi => np_split wi batch_splits) }

/-- The `Dataset` object as it stands at the end of `__init__`:
the flat value arrays plus the batched index structures. -/
structure DatasetD where
  pm_values : List ℚ
  gps_values : List (ℚ × ℚ)
  weather_values : Option (List (List ℚ))
  time_values : Option (List (List (List ℚ)))
  timestamps : List (List (Option ℚ))
  pm_gps_idx : List (List (Nat × Nat))
  weather_idx : Option (List (List Int))
deriving DecidableEq, Repr

/-- Source `Dataset.__init__`.  A weather table is a pair of its sorted
timestamp index (minutes) and its feature-vector rows; `datetime_to_vec`
is the optional calendar-feature callback (applied to the representative
timestamps after weather gating, as in the source).  `minutes_to_weather`
defaults to `None` exactly as in the Python signature.  The result is in
`Except` because the weather-gating stage can raise `IndexError` (out of
range fancy indexing inside `weather_available_mask`); construction that
reaches the end returns the `Dataset`. -/
def datasetInit (pm_gps : List Row) (snapshot_minutes : Int)
    (weather : Option (List Int × List (List ℚ)) := none)
    (minutes_to_weather : Option Int := none)
    (datetime_to_vec : Option (Option ℚ → List ℚ) := none) :
    Except PyErr DatasetD :=
  let rows := prep_pm_gps pm_gps snapshot_minutes
  let pm_values := rows.map Row.pm
  let gps_values := rows.map (fun r => (r.lon, r.lat))
  let index := rows.map Row.ts
  let pm_gps_idx := comp_snapshot_indices index snapshot_minutes
  let timestamps := comp_snapshot_timestamps pm_gps_idx index
  match weather with
  | some wpair => do
      let weather_idx := find_nearest_vec (wpair.1.map (fun (t : Int) => (t : ℚ))) timestamps
      let mask ← weather_available_mask wpair.1 weather_idx timestamps minutes_to_weather
      let pm_gps_idx2 := maskFilter pm_gps_idx mask
      let timestamps2 := maskFilter timestamps mask
      let weather_idx2 := maskFilter weather_idx mask
      let time_values := datetime_to_vec.map (fun f => timestamps2.map f)
      let st := split_to_batches index snapshot_minutes pm_gps_idx2 timestamps2
        time_values (some weather_idx2)
      pure { pm_values := pm_values
             gps_values := gps_values
             weather_values := some wpair.2
             time_values := st.time_values
             timestamps := st.timestamps
             pm_gps_idx := st.pm_gps_idx
             weather_idx := st.weather_idx }
  | none =>
      let time_values := datetime_to_vec.map (fun f => timestamps.map f)
      let st := split_to_batches index snapshot_minutes pm_gps_idx timestamps
        time_values none
      pure { pm_values := pm_values
             gps_values := gps_values
             weather_values := none
             time_values := st.time_values
             timestamps := st.timestamps
             pm_gps_idx := st.pm_gps_idx
             weather_idx := st.weather_idx }

/-- Source `Dataset.__len__`: `len(self.timestamps)`, the number of
retained batches. -/
def datasetLen (d : DatasetD) : Nat := d.timestamps.length

/-- The snapshot-gap property claimed for a segment `(s, e)` of a sorted
timestamp array (stated from the specification, to be compared with what
`comp_snapshot_indices` produces): every gap between consecutive
timestamps at positions inside `[s, e)` is strictly below the threshold,
while the gap just before `s` and the gap from `e-1` to `e` (when those
positions exist) reach it. -/
def specSegmentGapsOk (index : List Int) (m : Int) (s e : Nat) : Prop :=
  (∀ p < e, s ≤ p → p + 1 < e → index.getD (p + 1) 0 - index.getD p 0 < m) ∧
  (0 < s → m ≤ index.getD s 0 - index.getD (s - 1) 0) ∧
  (e < index.length → m ≤ index.getD e 0 - index.getD (e - 1) 0)

instance (index : List Int) (m : Int) (s e : Nat) :
    Decidable (specSegmentGapsOk index m s e) := by
  unfold specSegmentGapsOk; infer_instance

/-- The intra-batch gap property claimed for one batch (stated from the
specification): for consecutive snapshots inside one batch, the gap from
the end of the earlier snapshot to the start of the later one does not
exceed the batch threshold. -/
def specIntraBatchGapsOk (index_vals : List Int) (m : Int)
    (batch : List (Nat × Nat)) : Prop :=
  ∀ j < batch.length, j + 1 < batch.length →
    index_vals.getD (batch.getD (j + 1) (0, 0)).1 0 -
      index_vals.getD ((batch.getD j (0, 0)).2 - 1) 0 ≤ m

instance (index_vals : List Int) (m : Int) (batch : List (Nat × Nat)) :
    Decidable (specIntraBatchGapsOk index_vals m batch) := by
  unfold specIntraBatchGapsOk; infer_instance

/-- Modelled from the spec: the `Batch` view type is not in the provided
sources (only its construction site in `Dataset.__getitem__` is); per
section 4.5 it exposes `timestamps`, per-snapshot `pm` / `gps` slices,
and optional `weather` / `time` feature rows. -/
structure Batch where
  timestamps : List (Option ℚ)
  pm : List (List ℚ)
  gps : List (List (ℚ × ℚ))
  weather : Option (List (List ℚ))
  time : Option (List (List ℚ))
deriving DecidableEq, Repr

/-- A Python `slice(start, stop, step)` literal. -/
structure PySlice where
  start : Option Int
  stop : Option Int
  step : Option Int
deriving DecidableEq, Repr

/-- Keys `Dataset.__getitem__` can receive: a Python `int`, a `slice`,
or anything else (a numpy integer, a string, a tuple, ...), which fails
both `isinstance` checks. -/
inductive Key where
  | int (i : Int)
  | slice (s : PySlice)
  | other
deriving DecidableEq, Repr

/-- Number of elements of `range(start, stop, step)` for `step ≠ 0`. -/
def rangeLen (start stop step : Int) : Nat :=
  if 0 < step then (((stop - start) + step - 1).fdiv step).toNat
  else (((start - stop) + (-step) - 1).fdiv (-step)).toNat

/-- The list enumerated by Python `range(start, stop, step)`. -/
def rangeList (start stop step : Int) : List Int :=
  (List.range (rangeLen start stop step)).map (fun k => start + step * k)

/-- CPython `slice.indices(length)`: clamp `start`/`stop` into range for
the given step direction (raising `ValueError` on `step = 0` is handled
at the call site). -/
def sliceIndices (s : PySlice) (length : Nat) : Int × Int × Int :=
  let step := s.step.getD 1
  let lower : Int := if 0 < step then 0 else -1
  let upper : Int := if 0 < step then length else (length : Int) - 1
  let start := match s.start with
    | none => if 0 < step then lower else upper
    | some v => if v < 0 then max (v + length) lower else min v upper
  let stop := match s.stop with
    | none => if 0 < step then upper else lower
    | some v => if v < 0 then max (v + length) lower else min v upper
  (start, stop, step)

/-- The result of `Dataset.__getitem__`: a `Batch` for an `int` key, a
list of batches for a `slice` key, or Python `None` when both
`isinstance` checks fail. -/
inductive GetResult where
  | one (b : Batch)
  | many (bs : List Batch)
  | pyNone
deriving DecidableEq, Repr

/-- The `isinstance(key, int)` branch of `Dataset.__getitem__`: index the
batch lists (Python list indexing, which raises `IndexError` when out of
range), slice the flat value arrays by the batch's snapshot index pairs,
and gather the weather rows by numpy integer indexing. -/
def getIntKey (d : DatasetD) (i : Int) : Except PyErr Batch := do
  let ts ← pyListGet d.timestamps i
  let idx ← pyListGet d.pm_gps_idx i
  let pm := split_by_double_index idx d.pm_values
  let gps := split_by_double_index idx d.gps_values
  let weather ← match d.weather_values, d.weather_idx with
    | some wv, some wib => do
        let wi ← pyListGet wib i
        let rows ← wi.mapM (fun j => npGetE wv j)
        pure (some rows)
    | _, _ => pure none
  let time ← match d.time_values with
    | some tvb => do
        let t ← pyListGet tvb i
        pure (some t)
    | none => pure none
  pure { timestamps := ts, pm := pm, gps := gps, weather := weather, time := time }

/-- Source `Dataset.__getitem__`: dispatch on the runtime type of the
key; a key that is neither an `int` nor a `slice` falls through both
`isinstance` checks and returns `None`. -/
def getItem (d : DatasetD) (k : Key) : Except PyErr GetResult :=
  match k with
  | .int i => (getIntKey d i).map GetResult.one
  | .slice s =>
      if s.step.getD 1 = 0 then .error .valueError
      else
        let r := sliceIndices s (datasetLen d)
        (rangeList r.1 r.2.1 r.2.2).mapM (fun k => getIntKey d k) |>.map GetResult.many
  | .other => .ok .pyNone

/-- Calendar-feature alignment: when `time_values` is present it has one
entry per batch. -/
def timeWF : Option (List (List (List ℚ))) → Nat → Prop
  | none, _ => True
  | some tvb, n => tvb.length = n

instance : (o : Option (List (List (List ℚ)))) → (n : Nat) → Decidable (timeWF o n)
  | none, _ => .isTrue trivial
  | some tvb, n => inferInstanceAs (Decidable (tvb.length = n))

/-- Weather alignment: values and indices are present together, with one
index batch per batch and every stored index a valid row of the weather
table. -/
def weatherWF : Option (List (List ℚ)) → Option (List (List Int)) → Nat → Prop
  | none, none, _ => True
  | some wv, some wib, n =>
      wib.length = n ∧ ∀ b ∈ wib, ∀ j ∈ b, 0 ≤ j ∧ j.toNat < wv.length
  | some _, none, _ => False
  | none, some _, _ => False

instance : (wv : Option (List (List ℚ))) → (wib : Option (List (List Int))) →
    (n : Nat) → Decidable (weatherWF wv wib n)
  | none, none, _ => .isTrue trivial
  | some wv, some wib, n =>
      inferInstanceAs (Decidable (wib.length = n ∧
        ∀ b ∈ wib, ∀ j ∈ b, 0 ≤ j ∧ j.toNat < wv.length))
  | some _, none, _ => .isFalse (fun h => h)
  | none, some _, _ => .isFalse (fun h => h)

/-- Alignment facts that hold for every `Dataset` the constructor can
actually return (parallel batch arrays have the batch count of
`timestamps`; construction would have raised otherwise). -/
def WF (d : DatasetD) : Prop :=
  d.pm_gps_idx.length = d.timestamps.length ∧
  timeWF d.time_values d.timestamps.length ∧
  weatherWF d.weather_values d.weather_idx d.timestamps.length

instance (d : DatasetD) : Decidable (WF d) := by
  unfold WF; infer_instance

/-- The batch `__getitem__` returns for an in-range `int` key, written
with total lookups at the normalized (non-negative) position. -/
def expectedBatch (d : DatasetD) (i : Int) : Batch :=
  let j := (if i < 0 then i + d.timestamps.length else i).toNat
  let idx := d.pm_gps_idx.getD j []
  { timestamps := d.timestamps.getD j []
    pm := split_by_double_index idx d.pm_values
    gps := split_by_double_index idx d.gps_values
    weather := match d.weather_values, d.weather_idx with
      | some wv, some wib => some ((wib.getD j []).map (fun jj => wv.getD jj.toNat []))
      | _, _ => none
    time := d.time_values.map (fun tvb => tvb.getD j []) }

/-- The concrete example dataset used as a witness: four readings across
three 15-minute buckets (two in the first bucket, so no snapshot is
empty and no representative timestamp is `NaT`), a weather table of
three readings, a 15-minute weather tolerance and a constant
calendar-feature callback.  This construction succeeds, so the error
fallback is never taken. -/
def exampleDataset : DatasetD :=
  match datasetInit [⟨0, 1, 2, 3⟩, ⟨5, 2, 2, 3⟩, ⟨16, 2, 2, 3⟩, ⟨31, 5, 2, 3⟩] 15
      (some ([0, 15, 30], [[1], [2], [3]])) (some 15) (some (fun _ => [7])) with
  | .ok d => d
  | .error _ => ⟨[], [], none, none, [], [], none⟩

/-- The dataset value produced by the C5 counterexample construction
(one reading, a one-row weather table, no tolerance): every snapshot is
gated out and the single empty batch is pruned. -/
def gatedEmptyDataset : DatasetD :=
  ⟨[1], [(2, 3)], some [[5]], none, [], [], some []⟩

theorem except_bind_ok' {α β : Type _} (a : α) (f : α → Except PyErr β) :
    (Except.ok a : Except PyErr α) >>= f = f a := rfl

theorem except_bind_eq_ok {α β : Type _} (x : Except PyErr α)
    (f : α → Except PyErr β) (b : β) (h : x >>= f = .ok b) :
    ∃ a, x = .ok a ∧ f a = .ok b := by
  cases x with
  | ok a => exact ⟨a, rfl, h⟩
  | error e => rw [show (Except.error e : Except PyErr α) >>= f = .error e from rfl] at h; exact absurd h (by simp)

theorem except_bind_eq_error {α β : Type _} (x : Except PyErr α)
    (f : α → Except PyErr β) (e : PyErr) (h : x >>= f = .error e) :
    x = .error e ∨ ∃ a, x = .ok a ∧ f a = .error e := by
  cases x with
  | ok a => exact Or.inr ⟨a, rfl, h⟩
  | error e' =>
      rw [show (Except.error e' : Except PyErr α) >>= f =
        (.error e' : Except PyErr β) from rfl] at h
      injection h with h'
      exact Or.inl (by rw [h'])

theorem except_pure_eq_ok {α : Type _} (a b : α)
    (h : (pure a : Except PyErr α) = .ok b) : a = b :=
  Except.ok.inj h

theorem pyListGet_err {α : Type _} (l : List α) (i : Int)
    (h : ¬(-(l.length : Int) ≤ i ∧ i < (l.length : Int))) :
    pyListGet l i = .error .indexError := by
  simp only [pyListGet]
  rw [dif_neg]
  split <;> omega

theorem pyListGet_ok {α : Type _} (l : List α) (i : Int)
    (h : -(l.length : Int) ≤ i ∧ i < (l.length : Int)) :
    ∃ hj : ((if i < 0 then i + l.length else i).toNat) < l.length,
      pyListGet l i = .ok (l.get ⟨(if i < 0 then i + l.length else i).toNat, hj⟩) := by
  have hj : ((if i < 0 then i + (l.length : Int) else i).toNat) < l.length := by
    split <;> omega
  refine ⟨hj, ?_⟩
  simp only [pyListGet]
  rw [dif_pos ⟨by split <;> omega, hj⟩]

theorem pyListGet_error_eq {α : Type _} (l : List α) (i : Int) (e : PyErr)
    (h : pyListGet l i = .error e) : e = .indexError := by
  by_cases hc : -(l.length : Int) ≤ i ∧ i < (l.length : Int)
  · obtain ⟨hj, he⟩ := pyListGet_ok l i hc
    rw [he] at h
    exact absurd h (by simp)
  · rw [pyListGet_err l i hc] at h
    injection h with h'
    exact h'.symm

theorem npFancyIndexInt_error (l : List Int) (idx : List Int) (e : PyErr)
    (h : npFancyIndexInt l idx = .error e) : e = .indexError := by
  induction idx with
  | nil =>
      rw [show npFancyIndexInt l [] = .ok [] from rfl] at h
      exact absurd h (by simp)
  | cons i t ih =>
      simp only [npFancyIndexInt, List.mapM_cons] at h
      rcases except_bind_eq_error _ _ _ h with h1 | ⟨a, _, h2⟩
      · exact pyListGet_error_eq l i e h1
      · rcases except_bind_eq_error _ _ _ h2 with h3 | ⟨bs, _, h4⟩
        · exact ih h3
        · exact absurd h4 (by simp [pure, Except.pure])

theorem weather_available_mask_ok_of_none (wiv widx : List Int)
    (ts : List (Option ℚ)) (mask : List Bool)
    (h : weather_available_mask wiv widx ts none = .ok mask) :
    ∀ b ∈ mask, b = false := by
  unfold weather_available_mask at h
  obtain ⟨sel, _, hpure⟩ := except_bind_eq_ok _ _ _ h
  have := except_pure_eq_ok _ _ hpure
  subst this
  intro b hb
  obtain ⟨st, _, rfl⟩ := List.mem_map.mp hb
  rfl

theorem weather_available_mask_error (wiv widx : List Int)
    (ts : List (Option ℚ)) (mtw : Option Int) (e : PyErr)
    (h : weather_available_mask wiv widx ts mtw = .error e) : e = .indexError := by
  unfold weather_available_mask at h
  rcases except_bind_eq_error _ _ _ h with h1 | ⟨sel, _, h2⟩
  · exact npFancyIndexInt_error _ _ _ h1
  · exact absurd h2 (by simp [pure, Except.pure])

theorem maskFilter_all_false {α : Type _} (l : List α) (m : List Bool)
    (hm : ∀ b ∈ m, b = false) : maskFilter l m = [] := by
  induction m generalizing l with
  | nil => cases l <;> rfl
  | cons b t ih =>
      cases l with
      | nil => rfl
      | cons a l' =>
          have hb := hm b (List.mem_cons_self _ _)
          subst hb
          simpa [maskFilter] using ih l' (fun x hx => hm x (List.mem_cons_of_mem _ hx))

/-- C1: the boundary positions `comp_snapshot_indices` uses are the raw
`np.diff` positions, not those positions plus one, so on
`[0,1,2,20,21,40]` with a 15-minute threshold the produced segment
`(2,4)` contains the 18-minute gap internally while the gap before its
start is only 1 minute: the claimed gap property fails on the code's own
output (the property would hold for boundaries `[(0,3),(3,5),(5,6)]`). -/
theorem comp_snapshot_indices_violates_gap_spec :
    comp_snapshot_indices [0, 1, 2, 20, 21, 40] 15 = [(0, 2), (2, 4), (4, 6)] ∧
    (2, 4) ∈ comp_snapshot_indices [0, 1, 2, 20, 21, 40] 15 ∧
    ¬ specSegmentGapsOk [0, 1, 2, 20, 21, 40] 15 2 4 := by decide

/-- C2: `prep_pm_gps` discards the frame returned by
`average_duplicates`, so after construction the dataset's value arrays
still contain both rows that share the key (floored timestamp `0`, GPS
`(3, 2)`) instead of one averaged row: `pm_values` is `[1, 3]` where the
deduplicated table would give the single mean value `2`. -/
theorem dataset_pm_values_skip_dedup :
    (datasetInit [⟨0, 1, 2, 3⟩, ⟨5, 3, 2, 3⟩] 15).map DatasetD.pm_values =
      .ok [1, 3] ∧
    average_duplicates (prep_pm_gps [⟨0, 1, 2, 3⟩, ⟨5, 3, 2, 3⟩] 15) =
      [⟨0, 2, 2, 3⟩] ∧
    (datasetInit [⟨0, 1, 2, 3⟩, ⟨5, 3, 2, 3⟩] 15).map DatasetD.pm_values ≠
      .ok ((average_duplicates (prep_pm_gps [⟨0, 1, 2, 3⟩, ⟨5, 3, 2, 3⟩] 15)).map Row.pm) := by
  with_unfolding_all decide

/-- C3: `split_to_batches` passes the raw pair positions to `np.split`
instead of those positions plus one, so the snapshot pair whose gap
exceeds the threshold stays together: on four singleton snapshots at
minutes `[0, 10, 1000, 1010]` with threshold 15 the retained batch is
`[(1,2),(2,3),(3,4)]`, which contains the 990-minute gap internally
(and the preceding unit batch `[(0,1)]` is pruned). -/
theorem split_to_batches_intra_gap_violation :
    (split_to_batches [0, 10, 1000, 1010] 15 [(0, 1), (1, 2), (2, 3), (3, 4)]
        [some 0, some 10, some 1000, some 1010] none none).pm_gps_idx =
      [[(1, 2), (2, 3), (3, 4)]] ∧
    ¬ specIntraBatchGapsOk [0, 10, 1000, 1010] 15 [(1, 2), (2, 3), (3, 4)] := by
  decide

/-- C5 counterexample: with a weather table supplied and
`minutes_to_weather` omitted, construction does not fail — at this input
it silently completes and returns a Dataset (of length 0, every snapshot
having been gated out by the all-`False` `NaT` tolerance comparison),
refuting the claimed fail-fast configuration validation. -/
theorem datasetInit_missing_tolerance_completes :
    datasetInit [⟨0, 1, 2, 3⟩] 15 (some ([0], [[5]])) none none =
      .ok gatedEmptyDataset ∧
    datasetLen gatedEmptyDataset = 0 ∧ gatedEmptyDataset.pm_values = [1] := by
  with_unfolding_all decide

/-- C5 amended: a construction call that supplies a weather table but
omits `minutes_to_weather` is never rejected by any configuration
validation.  It either completes silently — the `NaT` tolerance makes
the availability mask all-`False`, every snapshot is gated out, and the
returned Dataset has length 0 — or, when a nearest-weather index is out
of range, it propagates numpy's `IndexError` from the gating stage; in
no case does it fail with a configuration-validation error. -/
theorem datasetInit_missing_tolerance_no_validation (pm_gps : List Row)
    (m : Int) (wiv : List Int) (wvals : List (List ℚ))
    (dtv : Option (Option ℚ → List ℚ)) :
    (∀ d, datasetInit pm_gps m (some (wiv, wvals)) none dtv = .ok d →
      datasetLen d = 0) ∧
    (∀ e, datasetInit pm_gps m (some (wiv, wvals)) none dtv = .error e →
      e = .indexError) := by
  constructor
  · intro d hd
    simp only [datasetInit] at hd
    obtain ⟨mask, hm, hg⟩ := except_bind_eq_ok _ _ _ hd
    have hmf : ∀ b ∈ mask, b = false :=
      weather_available_mask_ok_of_none _ _ _ _ hm
    have hdd := except_pure_eq_ok _ _ hg
    subst hdd
    simp only [datasetLen, maskFilter_all_false _ mask hmf]
    cases dtv <;>
      simp only [Option.map_none', Option.map_some', List.map_nil] <;> rfl
  · intro e he
    simp only [datasetInit] at he
    rcases except_bind_eq_error _ _ _ he with h1 | ⟨mask, _, h2⟩
    · exact weather_available_mask_error _ _ _ _ _ h1
    · exact absurd h2 (by simp [pure, Except.pure])

/-- Witness for the no-validation theorem: at the counterexample input
the construction completes and its result has length 0. -/
theorem datasetInit_missing_tolerance_no_validation_witness :
    datasetLen gatedEmptyDataset = 0 :=
  (datasetInit_missing_tolerance_no_validation [⟨0, 1, 2, 3⟩] 15 [0] [[5]] none).1
    gatedEmptyDataset (by with_unfolding_all decide)

/-- C7 counterexample: on an empty timestamp array the segmenter does
not return an empty segmentation — it returns the single empty segment
`(0, 0)` (a zero prepended to and the length appended to an empty
boundary list). -/
theorem comp_snapshot_indices_empty_not_nil :
    comp_snapshot_indices ([] : List Int) 15 = [(0, 0)] ∧
    comp_snapshot_indices ([] : List Int) 15 ≠ [] := by decide

set_option maxHeartbeats 1600000 in
/-- C7 amended: on an empty primary table the segmenter yields the
single empty segment `(0, 0)` rather than an empty segmentation;
construction with no optional streams succeeds without error and yields
length 0 (the representative timestamp is `NaT` and the lone unit batch
is pruned); but the no-error guarantee does not extend to weather
configurations — with a non-empty weather table the `NaT` representative
timestamp makes `find_nearest` return the out-of-range index
`len(weather)`, and the gating stage's fancy indexing raises
`IndexError`. -/
theorem datasetInit_empty_table (m : Int) (wiv : List Int)
    (wvals : List (List ℚ)) (mtw : Option Int)
    (dtv : Option (Option ℚ → List ℚ)) (hw : wiv ≠ []) :
    (∃ d, datasetInit [] m = .ok d ∧ datasetLen d = 0) ∧
    comp_snapshot_indices [] m = [(0, 0)] ∧
    datasetInit [] m (some (wiv, wvals)) mtw dtv = .error .indexError := by
  refine ⟨⟨_, rfl, rfl⟩, rfl, ?_⟩
  have hts : comp_snapshot_timestamps
      (comp_snapshot_indices (List.map Row.ts (prep_pm_gps [] m)) m)
      (List.map Row.ts (prep_pm_gps [] m)) = [none] := rfl
  have hwidx : find_nearest_vec (List.map (fun (t : Int) => (t : ℚ)) wiv) [none] =
      [(wiv.length : Int)] := by
    show [((List.map (fun (t : Int) => (t : ℚ)) wiv).length : Int)] = [(wiv.length : Int)]
    rw [List.length_map]
  have hfan : npFancyIndexInt wiv [(wiv.length : Int)] = .error .indexError := by
    simp only [npFancyIndexInt, List.mapM_cons]
    rw [pyListGet_err wiv (wiv.length : Int) (by omega)]
    rfl
  have hmask : weather_available_mask wiv [(wiv.length : Int)] [none] mtw =
      .error .indexError := by
    unfold weather_available_mask
    rw [hfan]
    rfl
  simp only [datasetInit]
  rw [hts, hwidx, hmask]
  rfl

/-- Witness for the empty-table theorem at a concrete configuration. -/
theorem datasetInit_empty_table_witness :
    (∃ d, datasetInit [] 15 = .ok d ∧ datasetLen d = 0) ∧
    comp_snapshot_indices [] 15 = [(0, 0)] ∧
    datasetInit [] 15 (some ([0], [[5]])) (some 15) none = .error .indexError :=
  datasetInit_empty_table 15 [0] [[5]] (some 15) none (by decide)

theorem searchsorted_le_length (arr : List ℚ) (v : ℚ) :
    searchsorted arr v ≤ arr.length := by
  induction arr with
  | nil => simp [searchsorted]
  | cons x xs ih =>
      by_cases h : v ≤ x <;> simp [searchsorted, h] <;> omega

theorem getD_lt_of_lt_searchsorted (arr : List ℚ) (v : ℚ) (j : Nat)
    (h : j < searchsorted arr v) : arr.getD j 0 < v := by
  induction arr generalizing j with
  | nil => simp [searchsorted] at h
  | cons x xs ih =>
      by_cases hx : v ≤ x
      · simp [searchsorted, hx] at h
      · cases j with
        | zero => simpa using lt_of_not_le hx
        | succ k =>
            simp only [searchsorted, if_neg hx] at h
            simpa using ih k (by omega)

theorem le_getD_searchsorted (arr : List ℚ) (v : ℚ)
    (h : searchsorted arr v < arr.length) :
    v ≤ arr.getD (searchsorted arr v) 0 := by
  induction arr with
  | nil => simp at h
  | cons x xs ih =>
      by_cases hx : v ≤ x
      · simpa [searchsorted, hx] using hx
      · simp only [searchsorted, if_neg hx, List.length_cons, Nat.add_lt_add_iff_right] at h
        simpa [searchsorted, hx] using ih h

theorem getD_mono_of_chain (arr : List ℚ) (hs : List.Chain' (· ≤ ·) arr)
    {i j : Nat} (hij : i ≤ j) (hj : j < arr.length) :
    arr.getD i 0 ≤ arr.getD j 0 := by
  rcases Nat.eq_or_lt_of_le hij with rfl | hlt
  · exact le_refl _
  · have hp := List.chain'_iff_pairwise.mp hs
    have hg := List.pairwise_iff_get.mp hp ⟨i, by omega⟩ ⟨j, hj⟩ hlt
    rw [List.getD_eq_getElem arr 0 (by omega : i < arr.length),
      List.getD_eq_getElem arr 0 hj]
    simpa using hg

theorem searchsorted_eq_of_between (arr : List ℚ) (v : ℚ)
    (hs : List.Chain' (· ≤ ·) arr) (i : Nat) (hi : i + 1 < arr.length)
    (h1 : arr.getD i 0 < v) (h2 : v ≤ arr.getD (i + 1) 0) :
    searchsorted arr v = i + 1 := by
  by_contra hneq
  rcases Nat.lt_or_ge (searchsorted arr v) (i + 1) with hlt | hge
  · have hsv : searchsorted arr v ≤ i := by omega
    have := le_getD_searchsorted arr v (by omega)
    have := getD_mono_of_chain arr hs hsv (by omega : i < arr.length)
    linarith
  · have : i + 1 < searchsorted arr v := by omega
    have := getD_lt_of_lt_searchsorted arr v (i + 1) this
    linarith

/-- C6 amended: for a sorted non-empty weather-timestamp array, unless
the query lies strictly beyond an all-equal array (in which case the
code returns the out-of-range index `len(arr)`), `find_nearest` returns
a valid index minimizing the absolute time difference, and when the
query is exactly equidistant between two adjacent weather timestamps it
returns the index of the LATER one (the strict `<` comparison keeps the
insertion point on a tie). -/
theorem find_nearest_minimizes (arr : List ℚ) (v : ℚ)
    (hs : List.Chain' (· ≤ ·) arr) (hne : arr ≠ [])
    (hok : ¬(arr.getD 0 0 = arr.getD (arr.length - 1) 0 ∧
      arr.getD (arr.length - 1) 0 < v)) :
    ∃ k : Nat, find_nearest arr v = (k : Int) ∧ k < arr.length ∧
      (∀ j < arr.length, |arr.getD k 0 - v| ≤ |arr.getD j 0 - v|) ∧
      (∀ i, i + 1 < arr.length → arr.getD i 0 < v → v ≤ arr.getD (i + 1) 0 →
        v - arr.getD i 0 = arr.getD (i + 1) 0 - v → k = i + 1) := by
  have hn : 0 < arr.length := List.length_pos.mpr hne
  have hfn : find_nearest arr v =
      (searchsorted arr v : Int) -
        (if |arr.getD (if searchsorted arr v = 0 then arr.length - 1
              else searchsorted arr v - 1) 0 - v| <
            |arr.getD (searchsorted arr v % arr.length) 0 - v| then 1 else 0) := rfl
  set n := arr.length
  set s := searchsorted arr v
  have hsle : s ≤ n := searchsorted_le_length arr v
  rcases Nat.lt_or_ge s n with hlt | hge
  · rcases Nat.eq_zero_or_pos s with hz | hpos
    · -- insertion point at the front: the query is at or below every element
      have h0 : v ≤ arr.getD 0 0 := by
        have h := le_getD_searchsorted arr v (by omega)
        rw [show searchsorted arr v = 0 from hz] at h
        exact h
      have hcond : ¬(|arr.getD (if s = 0 then n - 1 else s - 1) 0 - v| <
          |arr.getD (s % n) 0 - v|) := by
        rw [if_pos hz, hz, Nat.zero_mod]
        have hml : arr.getD 0 0 ≤ arr.getD (n - 1) 0 :=
          getD_mono_of_chain arr hs (Nat.zero_le _) (by omega)
        rw [abs_of_nonneg (by linarith : (0:ℚ) ≤ arr.getD (n - 1) 0 - v),
          abs_of_nonneg (by linarith : (0:ℚ) ≤ arr.getD 0 0 - v)]
        linarith
      refine ⟨0, ?_, hn, ?_, ?_⟩
      · rw [hfn, if_neg hcond, hz]; simp
      · intro j hj
        have hmono : arr.getD 0 0 ≤ arr.getD j 0 :=
          getD_mono_of_chain arr hs (Nat.zero_le _) hj
        rw [abs_of_nonneg (by linarith : (0:ℚ) ≤ arr.getD 0 0 - v),
          abs_of_nonneg (by linarith : (0:ℚ) ≤ arr.getD j 0 - v)]
        linarith
      · intro i hi h1 _ _
        exfalso
        have : arr.getD 0 0 ≤ arr.getD i 0 :=
          getD_mono_of_chain arr hs (Nat.zero_le _) (by omega)
        linarith
    · -- interior insertion point: compare the two adjacent candidates
      have hl : arr.getD (s - 1) 0 < v :=
        getD_lt_of_lt_searchsorted arr v (s - 1) (by omega)
      have hr : v ≤ arr.getD s 0 := le_getD_searchsorted arr v hlt
      have el : |arr.getD (s - 1) 0 - v| = v - arr.getD (s - 1) 0 := by
        rw [abs_of_nonpos (by linarith), neg_sub]
      have er : |arr.getD s 0 - v| = arr.getD s 0 - v :=
        abs_of_nonneg (by linarith)
      have hif : (if s = 0 then n - 1 else s - 1) = s - 1 := if_neg (by omega)
      have hmod : s % n = s := Nat.mod_eq_of_lt hlt
      by_cases hC : v - arr.getD (s - 1) 0 < arr.getD s 0 - v
      · have hcond : |arr.getD (if s = 0 then n - 1 else s - 1) 0 - v| <
            |arr.getD (s % n) 0 - v| := by rw [hif, hmod, el, er]; exact hC
        refine ⟨s - 1, ?_, by omega, ?_, ?_⟩
        · rw [hfn, if_pos hcond]; omega
        · intro j hj
          rcases Nat.lt_or_ge j s with hjs | hjs
          · have hmono : arr.getD j 0 ≤ arr.getD (s - 1) 0 :=
              getD_mono_of_chain arr hs (by omega) (by omega)
            have hjv : arr.getD j 0 < v := getD_lt_of_lt_searchsorted arr v j hjs
            rw [el, show |arr.getD j 0 - v| = v - arr.getD j 0 from by
              rw [abs_of_nonpos (by linarith), neg_sub]]
            linarith
          · have hmono : arr.getD s 0 ≤ arr.getD j 0 :=
              getD_mono_of_chain arr hs hjs hj
            rw [el, abs_of_nonneg (show (0:ℚ) ≤ arr.getD j 0 - v by linarith)]
            linarith
        · intro i hi h1 h2 h3
          exfalso
          have hsi : s = i + 1 := searchsorted_eq_of_between arr v hs i hi h1 h2
          rw [hsi, Nat.add_sub_cancel] at hC
          linarith
      · have hcond : ¬(|arr.getD (if s = 0 then n - 1 else s - 1) 0 - v| <
            |arr.getD (s % n) 0 - v|) := by rw [hif, hmod, el, er]; exact hC
        have hC' := not_lt.mp hC
        refine ⟨s, ?_, hlt, ?_, ?_⟩
        · rw [hfn, if_neg hcond]; omega
        · intro j hj
          rcases Nat.lt_or_ge j s with hjs | hjs
          · have hmono : arr.getD j 0 ≤ arr.getD (s - 1) 0 :=
              getD_mono_of_chain arr hs (by omega) (by omega)
            have hjv : arr.getD j 0 < v := getD_lt_of_lt_searchsorted arr v j hjs
            rw [er, show |arr.getD j 0 - v| = v - arr.getD j 0 from by
              rw [abs_of_nonpos (by linarith), neg_sub]]
            linarith
          · have hmono : arr.getD s 0 ≤ arr.getD j 0 :=
              getD_mono_of_chain arr hs hjs hj
            rw [er, abs_of_nonneg (show (0:ℚ) ≤ arr.getD j 0 - v by linarith)]
            linarith
        · intro i hi h1 h2 _
          exact searchsorted_eq_of_between arr v hs i hi h1 h2
  · -- insertion point past the end: the query exceeds every element
    have hsn : s = n := le_antisymm hsle hge
    have hall : ∀ j < n, arr.getD j 0 < v := fun j hj =>
      getD_lt_of_lt_searchsorted arr v j (by omega)
    have hlast : arr.getD (n - 1) 0 < v := hall (n - 1) (by omega)
    have h0n : arr.getD 0 0 < arr.getD (n - 1) 0 :=
      lt_of_le_of_ne (getD_mono_of_chain arr hs (Nat.zero_le _) (by omega))
        (fun he => hok ⟨he, hlast⟩)
    have hcond : |arr.getD (if s = 0 then n - 1 else s - 1) 0 - v| <
        |arr.getD (s % n) 0 - v| := by
      rw [show (if s = 0 then n - 1 else s - 1) = n - 1 from by
          rw [hsn]; exact if_neg (by omega),
        show s % n = 0 from by rw [hsn]; exact Nat.mod_self n]
      have h0v : arr.getD 0 0 < v := hall 0 hn
      rw [show |arr.getD (n - 1) 0 - v| = v - arr.getD (n - 1) 0 from by
          rw [abs_of_nonpos (by linarith), neg_sub],
        show |arr.getD 0 0 - v| = v - arr.getD 0 0 from by
          rw [abs_of_nonpos (by linarith), neg_sub]]
      linarith
    refine ⟨n - 1, ?_, by omega, ?_, ?_⟩
    · rw [hfn, if_pos hcond]; omega
    · intro j hj
      have hmono : arr.getD j 0 ≤ arr.getD (n - 1) 0 :=
        getD_mono_of_chain arr hs (by omega) (by omega)
      rw [show |arr.getD (n - 1) 0 - v| = v - arr.getD (n - 1) 0 from by
          rw [abs_of_nonpos (by linarith), neg_sub],
        show |arr.getD j 0 - v| = v - arr.getD j 0 from by
          rw [abs_of_nonpos (by linarith [hall j hj]), neg_sub]]
      linarith
    · intro i hi _ h2 _
      exact absurd h2 (not_le.mpr (hall (i + 1) hi))

/-- C6 counterexample: on the sorted weather array `[0, 10]` the query
`5` is exactly equidistant between the two adjacent timestamps, and
`find_nearest` returns index 1 (the later timestamp), not index 0 (the
earlier one) as claimed: the strict `<` keeps the insertion point on a
tie. -/
theorem find_nearest_tie_returns_later :
    List.Chain' (· ≤ ·) [(0 : ℚ), 10] ∧
    (5 : ℚ) - 0 = 10 - 5 ∧
    find_nearest [(0 : ℚ), 10] 5 = 1 ∧
    find_nearest [(0 : ℚ), 10] 5 ≠ 0 := by
  refine ⟨by simp [List.chain'_cons], ?_, ?_, ?_⟩ <;> with_unfolding_all decide

/-- Witness for the amended C6 theorem at the concrete sorted array
`[0, 10]` and query `5`. -/
theorem find_nearest_minimizes_witness :
    ∃ k : Nat, find_nearest [(0 : ℚ), 10] 5 = (k : Int) ∧
      k < ([(0 : ℚ), 10]).length ∧
      (∀ j < ([(0 : ℚ), 10]).length,
        |([(0 : ℚ), 10]).getD k 0 - 5| ≤ |([(0 : ℚ), 10]).getD j 0 - 5|) ∧
      (∀ i, i + 1 < ([(0 : ℚ), 10]).length → ([(0 : ℚ), 10]).getD i 0 < 5 →
        (5 : ℚ) ≤ ([(0 : ℚ), 10]).getD (i + 1) 0 →
        (5 : ℚ) - ([(0 : ℚ), 10]).getD i 0 = ([(0 : ℚ), 10]).getD (i + 1) 0 - 5 →
        k = i + 1) :=
  find_nearest_minimizes [0, 10] 5 (by simp [List.chain'_cons])
    (by with_unfolding_all decide) (by with_unfolding_all decide)

theorem meanQ_singleton (x : ℚ) : meanQ [x] = x := by
  simp [meanQ]

theorem meanQ_const (l : List ℚ) (c : ℚ) (hne : l ≠ []) (h : ∀ x ∈ l, x = c) :
    meanQ l = c := by
  have hlen : (l.length : ℚ) ≠ 0 :=
    Nat.cast_ne_zero.mpr (List.length_pos.mpr hne).ne'
  have hsum : l.sum = l.length • c := List.sum_eq_card_nsmul l c h
  rw [meanQ, hsum, nsmul_eq_mul]
  field_simp

theorem keyOf_mkRow (rows : List Row) (k : Int × ℚ × ℚ)
    (h : ∃ r ∈ rows, keyOf r = k) : keyOf (mkRow rows k) = k := by
  obtain ⟨r, hr, hk⟩ := h
  have hrg : r ∈ rows.filter (fun r => decide (keyOf r = k)) :=
    List.mem_filter.mpr ⟨hr, by simp [hk]⟩
  have hmemc : ∀ r' ∈ rows.filter (fun r => decide (keyOf r = k)), keyOf r' = k :=
    fun r' hr' => by simpa using (List.mem_filter.mp hr').2
  have hlat : meanQ ((rows.filter (fun r => decide (keyOf r = k))).map Row.lat) = k.2.1 := by
    apply meanQ_const
    · simp only [ne_eq, List.map_eq_nil]
      exact List.ne_nil_of_mem hrg
    · intro x hx
      obtain ⟨r', hr', rfl⟩ := List.mem_map.mp hx
      have := hmemc r' hr'
      simpa [keyOf] using congrArg (fun p => p.2.1) this
  have hlon : meanQ ((rows.filter (fun r => decide (keyOf r = k))).map Row.lon) = k.2.2 := by
    apply meanQ_const
    · simp only [ne_eq, List.map_eq_nil]
      exact List.ne_nil_of_mem hrg
    · intro x hx
      obtain ⟨r', hr', rfl⟩ := List.mem_map.mp hx
      have := hmemc r' hr'
      simpa [keyOf] using congrArg (fun p => p.2.2) this
  show ((mkRow rows k).ts, (mkRow rows k).lat, (mkRow rows k).lon) = k
  show (k.1, meanQ _, meanQ _) = k
  rw [hlat, hlon]

theorem filter_eq_singleton_of_nodup {α : Type _} [DecidableEq α]
    (l : List α) (hnd : l.Nodup) (a : α) (ha : a ∈ l) :
    l.filter (fun x => decide (x = a)) = [a] := by
  induction l with
  | nil => simp at ha
  | cons x xs ih =>
      rcases List.nodup_cons.mp hnd with ⟨hx, hxs⟩
      by_cases he : x = a
      · subst he
        have hnone : xs.filter (fun y => decide (y = x)) = [] := by
          rw [List.filter_eq_nil_iff]
          intro b hb
          simp only [decide_eq_true_eq]
          exact fun hba => hx (hba ▸ hb)
        simp [List.filter_cons, hnone]
      · have hmem : a ∈ xs := by
          rcases List.mem_cons.mp ha with h1 | h1
          · exact absurd h1.symm he
          · exact h1
        simp only [List.filter_cons, decide_eq_true_eq, if_neg he]
        exact ih hxs hmem

/-- Idempotence of the Duplicate Averager under the exact-rational
idealization of `.mean()`: applied to its own output, every group is a
singleton whose mean is itself, the key list is already distinct and
sorted, and the same frame comes back.  This is a model-level fact only:
the program's float64 mean can perturb the `gpsLatitude` /
`gpsLongitude` key columns (the mean of three copies of `0.1` is
`0.10000000000000002`), so a first pass can emit two rows with equal
keys that a second pass merges — the idempotence of the code as written
hinges on IEEE-754 rounding and is not settled by this theorem. -/
theorem average_duplicates_idempotent (rows : List Row) :
    average_duplicates (average_duplicates rows) = average_duplicates rows := by
  unfold average_duplicates
  set ks := List.insertionSort keyLe (rows.map keyOf).dedup with hks
  have hnd : ks.Nodup :=
    ((List.perm_insertionSort keyLe _).nodup_iff).mpr (List.nodup_dedup _)
  have hsort : List.Sorted keyLe ks := List.sorted_insertionSort keyLe _
  have hmem : ∀ k ∈ ks, ∃ r ∈ rows, keyOf r = k := by
    intro k hk
    have hk2 := (List.perm_insertionSort keyLe _).subset hk
    exact List.mem_map.mp (List.mem_dedup.mp hk2)
  have hkeys : (ks.map (mkRow rows)).map keyOf = ks := by
    rw [List.map_map]
    have h2 : ∀ k ∈ ks, (keyOf ∘ mkRow rows) k = id k :=
      fun k hk => keyOf_mkRow rows k (hmem k hk)
    rw [List.map_congr_left h2, List.map_id]
  rw [hkeys, List.dedup_eq_self.mpr hnd, hsort.insertionSort_eq]
  apply List.map_congr_left
  intro k hk
  have hfil : (ks.map (mkRow rows)).filter (fun r => decide (keyOf r = k)) =
      [mkRow rows k] := by
    rw [List.filter_map]
    have hcong : ks.filter ((fun r => decide (keyOf r = k)) ∘ mkRow rows) =
        ks.filter (fun x => decide (x = k)) := by
      apply List.filter_congr
      intro x hx
      simp [Function.comp, keyOf_mkRow rows x (hmem x hx)]
    rw [hcong, filter_eq_singleton_of_nodup ks hnd k hk]
    rfl
  show mkRow (ks.map (mkRow rows)) k = mkRow rows k
  conv_lhs => rw [mkRow]
  rw [hfil]
  simp only [List.map_cons, List.map_nil, meanQ_singleton]
  rfl

theorem comp_snapshot_timestamps_length (si : List (Nat × Nat)) (ts : List Int) :
    (comp_snapshot_timestamps si ts).length = si.length := by
  simp [comp_snapshot_timestamps]

theorem maskFilter_length_congr {α β : Type _} (m : List Bool) (l1 : List α)
    (l2 : List β) (h : l1.length = l2.length) :
    (maskFilter l1 m).length = (maskFilter l2 m).length := by
  induction m generalizing l1 l2 with
  | nil => cases l1 <;> cases l2 <;> rfl
  | cons b m ih =>
      cases l1 with
      | nil =>
          cases l2 with
          | nil => rfl
          | cons c t2 => simp at h
      | cons a t1 =>
          cases l2 with
          | nil => simp at h
          | cons c t2 =>
              have ht := ih t1 t2 (by simpa using h)
              cases b <;> simp [maskFilter, ht]

theorem np_split_map_length {α β : Type _} (l1 : List α) (l2 : List β)
    (ss : List Nat) (h : l1.length = l2.length) :
    (np_split l1 ss).map List.length = (np_split l2 ss).map List.length := by
  unfold np_split
  rw [List.map_map, List.map_map, h]
  apply List.map_congr_left
  intro ab _
  simp [List.length_take, List.length_drop, h]

theorem map_eraseIdx {α β : Type _} (f : α → β) :
    ∀ (l : List α) (i : Nat), (l.eraseIdx i).map f = (l.map f).eraseIdx i
  | [], _ => by simp
  | a :: l, 0 => by simp [List.eraseIdx]
  | a :: l, i + 1 => by simp [List.eraseIdx, map_eraseIdx f l i]

theorem delete_indices_map {α β : Type _} (f : α → β) (l : List α)
    (idx : List Nat) :
    (delete_indices l idx).map f = delete_indices (l.map f) idx := by
  unfold delete_indices
  generalize List.insertionSort (fun a b : Nat => b ≤ a) idx = s
  induction s generalizing l with
  | nil => rfl
  | cons i s ih => simp only [List.foldl_cons, ih, map_eraseIdx]

theorem split_to_batches_pm_timestamps (iv : List Int) (m : Int)
    (si : List (Nat × Nat)) (ts : List (Option ℚ))
    (tv : Option (List (List ℚ))) (wi : Option (List Int))
    (h : si.length = ts.length) :
    (split_to_batches iv m si ts tv wi).pm_gps_idx.map List.length =
      (split_to_batches iv m si ts tv wi).timestamps.map List.length := by
  simp only [split_to_batches, remove_unit_batches]
  rw [delete_indices_map, delete_indices_map, np_split_map_length si ts _ h]

theorem split_to_batches_weather (iv : List Int) (m : Int)
    (si : List (Nat × Nat)) (ts : List (Option ℚ))
    (tv : Option (List (List ℚ))) (w : List Int)
    (h : w.length = ts.length) :
    ∃ wi, (split_to_batches iv m si ts tv (some w)).weather_idx = some wi ∧
      wi.map List.length =
        (split_to_batches iv m si ts tv (some w)).timestamps.map List.length := by
  simp only [split_to_batches, remove_unit_batches, Option.map_some']
  refine ⟨_, rfl, ?_⟩
  rw [delete_indices_map, delete_indices_map, np_split_map_length w ts _ h]

theorem split_to_batches_time (iv : List Int) (m : Int)
    (si : List (Nat × Nat)) (ts : List (Option ℚ))
    (t : List (List ℚ)) (wi : Option (List Int))
    (h : t.length = ts.length) :
    ∃ tv, (split_to_batches iv m si ts (some t) wi).time_values = some tv ∧
      tv.map List.length =
        (split_to_batches iv m si ts (some t) wi).timestamps.map List.length := by
  simp only [split_to_batches, remove_unit_batches, Option.map_some']
  refine ⟨_, rfl, ?_⟩
  rw [delete_indices_map, delete_indices_map, np_split_map_length t ts _ h]

set_option maxHeartbeats 1600000 in
/-- C4: with a weather table supplied, every construction that completes
(returns a Dataset rather than raising) leaves the parallel index
structures in lockstep after gating and unit-batch pruning — the batched
snapshot index pairs, representative timestamps, weather indices, and
(when configured) calendar feature vectors agree batch-for-batch and
snapshot-for-snapshot in length; this covers every program-constructible
weather Dataset. -/
theorem dataset_alignment (pm_gps : List Row) (m : Int) (wiv : List Int)
    (wvals : List (List ℚ)) (mtw : Option Int)
    (dtv : Option (Option ℚ → List ℚ)) (d : DatasetD)
    (hd : datasetInit pm_gps m (some (wiv, wvals)) mtw dtv = .ok d) :
    d.pm_gps_idx.map List.length = d.timestamps.map List.length ∧
    (∃ wi, d.weather_idx = some wi ∧
      wi.map List.length = d.timestamps.map List.length) ∧
    (∀ g, dtv = some g → ∃ tv, d.time_values = some tv ∧
      tv.map List.length = d.timestamps.map List.length) := by
  have hts : (comp_snapshot_indices ((prep_pm_gps pm_gps m).map Row.ts) m).length =
      (comp_snapshot_timestamps (comp_snapshot_indices ((prep_pm_gps pm_gps m).map Row.ts) m)
        ((prep_pm_gps pm_gps m).map Row.ts)).length :=
    (comp_snapshot_timestamps_length _ _).symm
  simp only [datasetInit] at hd
  obtain ⟨mask, hm, hg⟩ := except_bind_eq_ok _ _ _ hd
  have hdd := except_pure_eq_ok _ _ hg
  subst hdd
  refine ⟨?_, ?_, ?_⟩
  · exact split_to_batches_pm_timestamps _ _ _ _ _ _
      (maskFilter_length_congr mask _ _ hts)
  · exact split_to_batches_weather _ _ _ _ _ _
      (maskFilter_length_congr mask _ _
        (by simp [find_nearest_vec, comp_snapshot_timestamps]))
  · intro g hg2
    subst hg2
    exact split_to_batches_time _ _ _ _ _ _ (by simp)

/-- Witness for the alignment invariant on a concretely constructed
Dataset with weather and calendar features (the construction succeeds,
discharging the completion hypothesis by evaluation). -/
theorem dataset_alignment_witness :
    exampleDataset.pm_gps_idx.map List.length =
      exampleDataset.timestamps.map List.length ∧
    (∃ wi, exampleDataset.weather_idx = some wi ∧
      wi.map List.length = exampleDataset.timestamps.map List.length) ∧
    (∃ tv, exampleDataset.time_values = some tv ∧
      tv.map List.length = exampleDataset.timestamps.map List.length) :=
  ⟨(dataset_alignment [⟨0, 1, 2, 3⟩, ⟨5, 2, 2, 3⟩, ⟨16, 2, 2, 3⟩, ⟨31, 5, 2, 3⟩] 15 [0, 15, 30]
      [[1], [2], [3]] (some 15) (some (fun _ => [7])) exampleDataset
      (by with_unfolding_all decide)).1,
    (dataset_alignment [⟨0, 1, 2, 3⟩, ⟨5, 2, 2, 3⟩, ⟨16, 2, 2, 3⟩, ⟨31, 5, 2, 3⟩] 15 [0, 15, 30]
      [[1], [2], [3]] (some 15) (some (fun _ => [7])) exampleDataset
      (by with_unfolding_all decide)).2.1,
    (dataset_alignment [⟨0, 1, 2, 3⟩, ⟨5, 2, 2, 3⟩, ⟨16, 2, 2, 3⟩, ⟨31, 5, 2, 3⟩] 15 [0, 15, 30]
      [[1], [2], [3]] (some 15) (some (fun _ => [7])) exampleDataset
      (by with_unfolding_all decide)).2.2 (fun _ => [7]) rfl⟩

theorem mapM_ok_of_forall {α β : Type _} (l : List α) (f : α → Except PyErr β)
    (g : α → β) (h : ∀ x ∈ l, f x = .ok (g x)) : l.mapM f = .ok (l.map g) := by
  induction l with
  | nil => rfl
  | cons a t ih =>
      rw [List.mapM_cons, h a (List.mem_cons_self a t),
        ih (fun x hx => h x (List.mem_cons_of_mem _ hx))]
      rfl

theorem except_bind_ok {α β : Type _} (a : α) (f : α → Except PyErr β) :
    (Except.ok a : Except PyErr α) >>= f = f a := rfl

theorem except_bind_err {α β : Type _} (e : PyErr) (f : α → Except PyErr β) :
    (Except.error e : Except PyErr α) >>= f = .error e := rfl

theorem pyListGet_ok_getD {α : Type _} (l : List α) (dflt : α) (i : Int) (n : Nat)
    (hn : l.length = n) (h : -(n : Int) ≤ i ∧ i < (n : Int)) :
    pyListGet l i = .ok (l.getD ((if i < 0 then i + n else i).toNat) dflt) := by
  subst hn
  simp only [pyListGet]
  have hj : ((if i < 0 then i + (l.length : Int) else i)).toNat < l.length := by
    split <;> omega
  rw [dif_pos ⟨by split <;> omega, hj⟩, List.getD_eq_getElem l dflt hj]
  rfl

/-- C9: for an `int` key, `__getitem__` raises `IndexError` for every
index outside `[-len, len)` (Python list indexing does the bounds check
on the first attribute access) and returns the selected batch for every
in-range index. -/
theorem getitem_int_spec (d : DatasetD) (hwf : WF d) (i : Int) :
    (¬(-(d.timestamps.length : Int) ≤ i ∧ i < (d.timestamps.length : Int)) →
      getItem d (.int i) = .error .indexError) ∧
    ((-(d.timestamps.length : Int) ≤ i ∧ i < (d.timestamps.length : Int)) →
      getItem d (.int i) = .ok (.one (expectedBatch d i))) := by
  unfold WF at hwf
  obtain ⟨hidx_len, htime, hweather⟩ := hwf
  obtain ⟨pmv, gpsv, wvals, tvals, tss, pgi, widx⟩ := d
  dsimp only at hidx_len htime hweather ⊢
  constructor
  · intro hbad
    simp only [getItem, getIntKey]
    rw [pyListGet_err tss i hbad]
    rfl
  · intro hgood
    simp only [getItem, getIntKey]
    cases wvals with
    | none =>
        cases widx with
        | some wib => exact absurd hweather (by simp [weatherWF])
        | none =>
            cases tvals with
            | none =>
                dsimp only
                rw [pyListGet_ok_getD tss [] i tss.length rfl hgood,
                  pyListGet_ok_getD pgi [] i tss.length hidx_len hgood]
                rfl
            | some tvb =>
                simp only [timeWF] at htime
                dsimp only
                rw [pyListGet_ok_getD tss [] i tss.length rfl hgood,
                  pyListGet_ok_getD pgi [] i tss.length hidx_len hgood,
                  pyListGet_ok_getD tvb [] i tss.length htime hgood]
                rfl
    | some wv =>
        cases widx with
        | none => exact absurd hweather (by simp [weatherWF])
        | some wib =>
            simp only [weatherWF] at hweather
            obtain ⟨hwlen, hwbnd⟩ := hweather
            have hjn : ((if i < 0 then i + (tss.length : Int) else i)).toNat <
                wib.length := by rw [hwlen]; split <;> omega
            have hels : ∀ jj ∈ wib.getD ((if i < 0 then
                i + (tss.length : Int) else i)).toNat [],
                npGetE wv jj = .ok (wv.getD jj.toNat []) := by
              intro jj hjj
              have hbatch : wib.getD ((if i < 0 then
                  i + (tss.length : Int) else i)).toNat [] ∈ wib := by
                rw [List.getD_eq_getElem wib [] hjn]
                exact List.getElem_mem hjn
              obtain ⟨hjj0, hjjlt⟩ := hwbnd _ hbatch jj hjj
              show pyListGet wv jj = _
              rw [pyListGet_ok_getD wv [] jj wv.length rfl ⟨by omega, by omega⟩]
              congr 2
              split <;> omega
            dsimp only
            rw [pyListGet_ok_getD tss [] i tss.length rfl hgood,
              pyListGet_ok_getD pgi [] i tss.length hidx_len hgood,
              pyListGet_ok_getD wib [] i tss.length hwlen hgood]
            dsimp only [Bind.bind, Except.bind]
            rw [mapM_ok_of_forall _ _ (fun jj => wv.getD jj.toNat []) hels]
            cases tvals with
            | none => rfl
            | some tvb =>
                simp only [timeWF] at htime
                dsimp only
                rw [pyListGet_ok_getD tvb [] i tss.length htime hgood]
                rfl

/-- Witness for the `__getitem__` characterization: indexing the concrete
example dataset at 0 yields its first batch. -/
theorem getitem_int_spec_witness :
    getItem exampleDataset (.int 0) = .ok (.one (expectedBatch exampleDataset 0)) :=
  (getitem_int_spec exampleDataset (by with_unfolding_all decide) 0).2
    (by with_unfolding_all decide)

/-- C10: a key that is neither a Python `int` nor a `slice` (for example
a numpy integer, a string, or a tuple) fails both `isinstance` checks in
`__getitem__`, falls off the end of the function, and silently returns
`None` — no exception is raised. -/
theorem getitem_other_returns_pyNone (d : DatasetD) :
    getItem d Key.other = .ok GetResult.pyNone := rfl
